import Mathlib

/-!
Formal model of `fafserver` (`main.go`), a small HTTPS static-file server:
a request-serving pipeline (path resolution against a root directory,
directory listing, index substitution, conditional GET) guarded by HTTP
basic authentication with randomly generated credentials.

Modelling conventions:

* Filesystem paths are represented by their lists of `/`-separated
  components (`List String`); an absolute path `/a/b` is `["a", "b"]`.
  Redundant separators and `.` segments appear as `""` and `"."`
  components, exactly as `strings.Split` would produce them.
* Go `time.Time` values are nanosecond counts (`Int`); the zero
  `time.Time` is `0`.  `time.Time.Before` is `<`, `Add(1*time.Second)`
  is `+ 1000000000`.
* HTTP-date parsing of the `If-Modified-Since` header is abstracted by
  its result: `none` when the header is absent or fails to parse,
  `some t` when it parses to the time `t`.
* `sort.Sort` guarantees only that its output is a permutation of its
  input that is pairwise ordered by the given `Less`; it is modelled by
  `List.mergeSort`, which realises that contract.
-/

namespace Fafserver

/-- Go `time.Time`, as nanoseconds; the zero `time.Time` is `0`. -/
abbrev Time := Int

/-- One second, in nanoseconds (`1 * time.Second`). -/
def oneSecond : Time := 1000000000

/-- The effect of `checkLastModified` (main.go:99-112) on the response:
whether the request is complete, whether a 304 status was written, and the
time stamp written to the `Last-Modified` header (the header value is that
time formatted as a UTC HTTP-date; the formatting itself is not modelled). -/
structure CLMResult where
  complete : Bool
  wrote304 : Bool
  lastModified : Option Time
  deriving DecidableEq, Repr

/-- Function `checkLastModified` (main.go:99-112).  `ims` is the parse result of the
request's `If-Modified-Since` header (see the module conventions).
A zero modification time returns immediately; otherwise, when the header
parsed and `modtime.Before(t.Add(1*time.Second))`, a 304 is written and the
request is complete; otherwise the `Last-Modified` header is set to the
modification time and the caller proceeds with full content. -/
def checkLastModified (ims : Option Time) (modtime : Time) : CLMResult :=
  if modtime = 0 then
    ⟨false, false, none⟩
  else
    match ims with
    | some t =>
      if modtime < t + oneSecond then ⟨true, true, none⟩
      else ⟨false, false, some modtime⟩
    | none => ⟨false, false, some modtime⟩

/-- The `os.FileInfo` data used by the server: `Name()`, `IsDir()`,
`ModTime()`. -/
structure FileInfo where
  name : String
  isDir : Bool
  modTime : Time
  deriving DecidableEq, Repr

/-- An open `http.File`: its `Stat()` result (`none` when `Stat` fails),
the directory entries its `Readdir` calls enumerate (in the order the
filesystem returns them), and its byte content for regular files. -/
structure GoFile where
  stat : Option FileInfo
  entries : List FileInfo
  content : String
  deriving Repr

/-- An `http.FileSystem`: `Open` yields `none` exactly when the Go `Open`
returns a non-nil error. -/
structure FileSystem where
  Open : List String → Option GoFile

/-- Go `strings.ToLower`, modelled character-wise (exact on ASCII names). -/
def lowerName (s : String) : String := s.map Char.toLower

/-- The `Less` of `sortedFiles` (main.go:66-68), as the non-strict `le`
predicate that `sort.Sort`'s postcondition establishes between adjacent
output elements (`!Less(s[j], s[i])`, i.e. `lower(name i) ≤ lower(name j)`). -/
def fileLE (a b : FileInfo) : Bool :=
  decide (lowerName a.name ≤ lowerName b.name)

/-- The `Readdir(100)` accumulation loop of `sortedDirList`
(main.go:78-84): read up to 100 entries at a time, appending, until the
directory is exhausted (`Readdir` then returns no entries and `io.EOF`).
`pending` is the sequence of entries the filesystem has not yet returned. -/
def readdirLoop (pending acc : List FileInfo) : List FileInfo :=
  let dirs := pending.take 100
  if h : dirs.isEmpty then acc
  else
    readdirLoop (pending.drop 100) (acc ++ dirs)
termination_by pending.length
decreasing_by
  simp only [List.isEmpty_iff, dirs] at h
  have hp : pending ≠ [] := by
    intro hnil
    exact h (by simp [hnil])
  have hlen : 0 < pending.length := List.length_pos.mpr hp
  simp only [List.length_drop]
  omega

/-- The display name of a listed entry: directories get a trailing `/`
(main.go:87-90). -/
def displayName (d : FileInfo) : String :=
  if d.isDir then d.name ++ "/" else d.name

/-- One `<a href=...>` line of the listing (main.go:92). -/
def renderEntry (d : FileInfo) : String :=
  "<a href=\"" ++ displayName d ++ "\">" ++ displayName d ++ "</a>"

/-- The entries of the listing after the read loop and `sort.Sort`
(main.go:77-85), in emission order. -/
def listedEntries (entries : List FileInfo) : List FileInfo :=
  List.mergeSort (readdirLoop entries []) fileLE

/-- Function `sortedDirList` (main.go:74-95): the lines written to the response,
for a directory whose `Readdir` enumeration yields `entries`. -/
def sortedDirList (entries : List FileInfo) : List String :=
  "<pre>" :: (listedEntries entries).map renderEntry ++ ["</pre>"]

/-- The observable outcome of `serveFile` (main.go:116-160). `content`
records the delegation to `http.ServeContent` with the effective resource's
name, modification time and bytes. -/
inductive Response where
  | notFound
  | notModified
  | dirList (lines : List String)
  | content (name : String) (modTime : Time) (body : String)
  deriving DecidableEq, Repr

/-- The constant `indexPage = "/index.html"` (main.go:117), as path components. -/
def indexPage : List String := ["index.html"]

/-- Function `serveFile` (main.go:116-160): open, stat, index substitution for
directories, then directory listing (guarded by `checkLastModified`) or
content delegation.  `name` is the already-resolved path of the resource,
`ims` the parse result of the request's `If-Modified-Since` header. -/
def serveFile (fs : FileSystem) (name : List String) (ims : Option Time) :
    Response :=
  match fs.Open name with
  | none => Response.notFound
  | some f0 =>
    match f0.stat with
    | none => Response.notFound
    | some d0 =>
      let sub :=
        if d0.isDir then
          match fs.Open (name ++ indexPage) with
          | some ff =>
            match ff.stat with
            | some dd => (name ++ indexPage, dd, ff)
            | none => (name, d0, f0)
          | none => (name, d0, f0)
        else (name, d0, f0)
      let d := sub.2.1
      let f := sub.2.2
      if d.isDir then
        if (checkLastModified ims d.modTime).complete then
          Response.notModified
        else
          Response.dirList (sortedDirList f.entries)
      else
        Response.content d.name d.modTime f.content

/-- One step of Go's `path.Clean` element loop, on a rooted path: empty
components (redundant separators) and `.` are dropped, `..` removes the
last kept component (and is dropped at the root), any other name is kept. -/
def cleanStep (acc : List String) (s : String) : List String :=
  if s = "" ∨ s = "." then acc
  else if s = ".." then acc.dropLast
  else acc ++ [s]

/-- Go's `path.Clean` on a rooted path, at the level of path components:
`path.Clean("/" ++ join(segs, "/"))` has components `cleanSegs segs`.
This is the canonicalisation both `filepath.Join` (main.go:163) and the
default `http.ServeMux`'s `cleanPath` perform. -/
def cleanSegs (segs : List String) : List String :=
  segs.foldl cleanStep []

/-- A path component that canonicalisation keeps unchanged. -/
def cleanName (s : String) : Prop := s ≠ "" ∧ s ≠ "." ∧ s ≠ ".."

instance (s : String) : Decidable (cleanName s) := by
  unfold cleanName
  infer_instance

/-- A path (component list) already in canonical form, such as the root
directory obtained from `os.Getwd()` (main.go:34). -/
def isCleanPath (l : List String) : Prop := ∀ s ∈ l, cleanName s

instance (l : List String) : Decidable (isCleanPath l) :=
  List.decidableBAll cleanName l

/-- The default `http.ServeMux`'s `cleanPath`, which `ServeMux.Handler`
applies to the path of every request except CONNECT requests before the
handler registered in `main` (main.go:223) runs (non-CONNECT paths that
change are 301-redirected to their canonical form, so the handler only
ever receives canonical paths for those methods): `path.Clean` on the
rooted path, with a trailing slash (a final empty component) preserved
unless the result is the bare root. -/
def muxCleanPath (segs : List String) (trailingSlash : Bool) : List String :=
  let np := cleanSegs segs
  if trailingSlash ∧ np ≠ [] then np ++ [""] else np

/-- The `Server` header value `idstring` (main.go:25). -/
def idstring : String := "http://golang.org/pkg/http/#ListenAndServe"

/-- The data of an incoming request the handler inspects: the URL path (as
components plus a trailing-slash flag), the method, the decoded Basic-Auth
credential carried by the `Authorization` header (`none` when absent or
undecodable), and the parse result of `If-Modified-Since`. -/
structure Request where
  pathSegs : List String
  trailingSlash : Bool
  method : String
  creds : Option String
  ims : Option Time

/-- The URL path of `r` as the default `http.ServeMux` delivers it to the
handler: `ServeMux.Handler` canonicalises the path of every request except
CONNECT requests, which it explicitly exempts ("CONNECT requests are not
canonicalized"), so a CONNECT request's path arrives raw. -/
def muxHandlerPath (r : Request) : List String :=
  if r.method = "CONNECT" then r.pathSegs
  else muxCleanPath r.pathSegs r.trailingSlash

/-- The path `myFileServer` (main.go:162-165) resolves and opens for the
request `r`: the mux delivers the URL path (canonicalised unless the
method is CONNECT), then `filepath.Join(rootdir, url)` cleans
`rootdir ++ "/" ++ url`.  (`filepath.Split` then cuts off the last
component and `http.Dir(dir).Open(file)` re-joins it, opening exactly
this path.) -/
def resolveRequest (root : List String) (r : Request) : List String :=
  cleanSegs (root ++ muxHandlerPath r)

/-- The process's single credential, the string `user + ":" + pass`
built by `initUserPass` (main.go:203). -/
structure UserPass where
  cred : String

/-- Modelled from the spec: `basicauth.UserPass.IsAllowed` of the external
`github.com/mpl/basicauth` dependency (not under src/) holds exactly when
the request carries a Basic-Auth `Authorization` header that decodes to the
process's `username:password` credential string. -/
def isAllowed (up : UserPass) (r : Request) : Bool :=
  r.creds = some up.cred

/-- A response at the HTTP level: status, headers, body. -/
structure HttpResponse where
  status : Nat
  headers : List (String × String)
  body : String
  deriving DecidableEq, Repr

/-- Modelled from the spec: `basicauth.SendUnauthorized` of the external
`github.com/mpl/basicauth` dependency (not under src/) writes a
401-equivalent response with a `WWW-Authenticate` challenge naming the
realm, uniformly for every rejected request.  (The `Server` header was
already set by `makeHandler`, main.go:53.) -/
def sendUnauthorized (realm : String) : HttpResponse :=
  ⟨401,
   [("Server", idstring),
    ("WWW-Authenticate", "Basic realm=\"" ++ realm ++ "\"")],
   "Unauthorized\n"⟩

/-- A Go panic value as seen by the deferred `recover().(error)` type
assertion (main.go:47): either a value implementing `error` (carrying its
message) or any other value (for which the assertion fails). -/
inductive GoPanic where
  | errVal (msg : String)
  | nonError
  deriving DecidableEq, Repr

/-- Go `http.Error(w, msg, 500)` as issued by the recover branch
(main.go:48). -/
def http500 (msg : String) : HttpResponse :=
  ⟨500, [("Server", idstring)], msg ++ "\n"⟩

/-- The response the client sees when the handler returns without writing
anything (the swallowed-panic case): an empty 200 with the already-set
`Server` header. -/
def emptyOK : HttpResponse :=
  ⟨200, [("Server", idstring)], ""⟩

/-- Function `makeHandler` (main.go:44-60): sets the `Server` header, dispatches to
`fn` when the request's Basic-Auth credential matches, and rejects it with
`basicauth.SendUnauthorized(w, r, "simpleHttpd")` otherwise.  The deferred
`recover().(error)` turns a panic from `fn` into a 500 response when the
panic value implements `error`, and silently swallows any other panic
value; either way the panic never propagates. -/
def makeHandler (fn : Request → Except GoPanic HttpResponse)
    (up : UserPass) (r : Request) : HttpResponse :=
  if isAllowed up r then
    match fn r with
    | Except.ok resp => resp
    | Except.error (GoPanic.errVal msg) => http500 msg
    | Except.error GoPanic.nonError => emptyOK
  else
    sendUnauthorized "simpleHttpd"

/-- Rendering of a `serveFile` outcome at the HTTP level (`http.NotFound`,
`w.WriteHeader(304)`, the listing body, `http.ServeContent`). -/
def toHttp (resp : Response) : HttpResponse :=
  match resp with
  | Response.notFound =>
    ⟨404, [("Server", idstring)], "404 page not found\n"⟩
  | Response.notModified =>
    ⟨304, [("Server", idstring)], ""⟩
  | Response.dirList lines =>
    ⟨200,
     [("Server", idstring), ("Content-Type", "text/html; charset=utf-8")],
     String.intercalate "\n" lines ++ "\n"⟩
  | Response.content _ _ body =>
    ⟨200, [("Server", idstring)], body⟩

/-- Function `myFileServer` (main.go:162-165) over the filesystem `fs` rooted at
`root` (`rootdir`, from `os.Getwd()`): resolve the already-mux-canonical
URL path against the root and serve the result.  It never panics itself. -/
def myFileServer (fs : FileSystem) (root : List String) (r : Request) :
    Except GoPanic HttpResponse :=
  Except.ok
    (toHttp (serveFile fs (cleanSegs (root ++ r.pathSegs)) r.ims))

/-- The full per-request pipeline registered in `main` (main.go:223): the
default mux delivers the path — canonicalised for every method except
CONNECT, which `ServeMux.Handler` exempts (non-CONNECT paths that change
are 301-redirected, so the handler runs on the canonical path; CONNECT
paths arrive raw) — then `makeHandler(myFileServer)` handles the
request. -/
def handleRequest (fs : FileSystem) (root : List String) (up : UserPass)
    (r : Request) : HttpResponse :=
  makeHandler (myFileServer fs root) up
    { r with pathSegs := muxHandlerPath r }

/-- The lowercase hex alphabet of `fmt.Sprintf("%x", ...)`: the sixteen
digit characters for the values `0` to `15`. -/
def hexAlphabet : List Char :=
  (List.range 16).map Nat.digitChar

/-- The hex digit character for a value (taken modulo 16). -/
def hexDigitChar (n : Nat) : Char :=
  Nat.digitChar (n % 16)

/-- The two hex characters `%x` prints for one byte. -/
def hexByteChars (b : Nat) : List Char :=
  [hexDigitChar (b / 16), hexDigitChar b]

/-- Go `fmt.Sprintf("%x", buf)` for a byte slice: two lowercase hex digits
per byte. -/
def hexEncode (bs : List Nat) : String :=
  String.mk ((bs.map hexByteChars).flatten)

/-- The outcome of one `rand.Read(buf)` call: the bytes actually read and
the returned error, if any. -/
structure ReadResult where
  bytes : List Nat
  err : Option String

/-- Function `randToken` (main.go:186-192): requests `size` bytes of randomness;
fails when the read errors or returns fewer than `size` bytes
(`err != nil || n != len(buf)`), otherwise returns the hex encoding. -/
def randToken (size : Nat) (r : ReadResult) : Except String String :=
  if r.err.isSome ∨ r.bytes.length ≠ size then
    Except.error "failed to get some randomness"
  else
    Except.ok (hexEncode r.bytes)

/-- The outcome of `initUserPass` (main.go:194-209): either a fatal exit
(`log.Fatal`) or the generated username and password. -/
inductive InitResult where
  | fatal (msg : String)
  | ok (user pass : String)
  deriving DecidableEq, Repr

/-- Function `initUserPass` (main.go:194-209): two independent `randToken(20)`
calls, each consuming its own `rand.Read` outcome; any failure is fatal. -/
def initUserPass (r1 r2 : ReadResult) : InitResult :=
  match randToken 20 r1 with
  | Except.error e => InitResult.fatal e
  | Except.ok user =>
    match randToken 20 r2 with
    | Except.error e => InitResult.fatal e
    | Except.ok pass => InitResult.ok user pass

/-- A credential fixture for concrete evaluations. -/
def sampleUp : UserPass := ⟨"u:p"⟩

/-- A request fixture carrying no credential. -/
def sampleReqNone : Request := ⟨["a"], false, "GET", none, none⟩

/-- A request fixture carrying a wrong credential, with a different path
and method than `sampleReqNone`. -/
def sampleReqWrong : Request := ⟨["b", "c"], true, "POST", some "x:y", none⟩

/-- A request fixture carrying the matching credential for `sampleUp`. -/
def sampleReqOk : Request := ⟨["a"], false, "GET", some "u:p", none⟩

/-- A filesystem fixture: directory `/d` whose `index.html` is itself a
directory (both open and stat successfully). -/
def fsIdxDir : FileSystem :=
  ⟨fun p =>
    if p = ["d"] then some ⟨some ⟨"d", true, 7⟩, [], ""⟩
    else if p = ["d", "index.html"] then
      some ⟨some ⟨"index.html", true, 8⟩, [], ""⟩
    else none⟩

/-- A filesystem fixture: directory `/d` containing a regular-file
`index.html`. -/
def fsIdxFile : FileSystem :=
  ⟨fun p =>
    if p = ["d"] then some ⟨some ⟨"d", true, 7⟩, [], ""⟩
    else if p = ["d", "index.html"] then
      some ⟨some ⟨"index.html", false, 9⟩, [], "hello"⟩
    else none⟩

/-- A CONNECT request fixture, authenticated for `sampleUp`, whose raw URL
path climbs out of the root with `..` segments (the mux does not
canonicalise CONNECT paths). -/
def connectTraversalReq : Request :=
  ⟨["..", "..", "etc", "passwd"], false, "CONNECT", some "u:p", none⟩

/-- A GET request fixture with the same traversal path (canonicalised by
the mux before the handler runs). -/
def getTraversalReq : Request :=
  ⟨["..", "..", "etc", "passwd"], false, "GET", none, none⟩

/-- A filesystem fixture holding a file at `/etc/passwd`, outside the
root `/srv/www`. -/
def fsOutside : FileSystem :=
  ⟨fun p =>
    if p = ["etc", "passwd"] then
      some ⟨some ⟨"passwd", false, 3⟩, [], "secret"⟩
    else none⟩

/-- A read fixture: 20 bytes of randomness, no error. -/
def sampleRead20 : ReadResult := ⟨List.replicate 20 0, none⟩

/-- A read fixture: one byte `0xab`, no error. -/
def sampleRead1 : ReadResult := ⟨[171], none⟩

end Fafserver

namespace Fafserver

/-- Claim C4: for a resource with non-zero modification time and a request
whose `If-Modified-Since` header parses to `t`, `checkLastModified`
completes the request with a 304 if and only if `modtime < t + 1 second`. -/
theorem claim_C4 (modtime t : Time) (h : modtime ≠ 0) :
    ((checkLastModified (some t) modtime).complete = true ∧
        (checkLastModified (some t) modtime).wrote304 = true) ↔
      modtime < t + oneSecond := by
  by_cases hlt : modtime < t + oneSecond <;>
    simp [checkLastModified, h, hlt]

theorem claim_C4_witness :
    (checkLastModified (some 10) 5).complete = true ∧
      (checkLastModified (some 10) 5).wrote304 = true :=
  (claim_C4 5 10 (by decide)).mpr (by decide)

/-- Claim C5: when the `If-Modified-Since` header is unset or fails to
parse (`ims = none`), or the resource's modification time is the zero
value, `checkLastModified` never short-circuits: the request is not
complete and no 304 is written. -/
theorem claim_C5 (ims : Option Time) (modtime : Time)
    (h : ims = none ∨ modtime = 0) :
    (checkLastModified ims modtime).complete = false ∧
      (checkLastModified ims modtime).wrote304 = false := by
  rcases h with h | h
  · subst h
    by_cases hz : modtime = 0 <;> simp [checkLastModified, hz]
  · subst h
    cases ims <;> simp [checkLastModified]

theorem claim_C5_witness :
    (checkLastModified none 5).complete = false ∧
      (checkLastModified none 5).wrote304 = false :=
  claim_C5 none 5 (Or.inl rfl)

/-- Claim C8 counterexample: for the zero modification time,
`checkLastModified` lets full content proceed (not complete) yet does not
set the `Last-Modified` header, refuting the claim as stated. -/
theorem claim_C8_counterexample :
    ¬ ((checkLastModified none 0).complete = false →
        (checkLastModified none 0).lastModified = some 0) := by
  decide

/-- Claim C8 (amended): whenever the resource's modification time is
non-zero and `checkLastModified` does not short-circuit with a 304, it
sets the `Last-Modified` header to the modification time (formatted as a
UTC HTTP-date) before returning; with a zero modification time it also
proceeds with full content, but sets no header. -/
theorem claim_C8 (ims : Option Time) (modtime : Time) (h : modtime ≠ 0)
    (hc : (checkLastModified ims modtime).complete = false) :
    (checkLastModified ims modtime).lastModified = some modtime := by
  cases ims with
  | none => simp [checkLastModified, h]
  | some t =>
    by_cases hlt : modtime < t + oneSecond
    · simp [checkLastModified, h, hlt] at hc
    · simp [checkLastModified, h, hlt]

theorem claim_C8_witness :
    (checkLastModified none 5).lastModified = some 5 :=
  claim_C8 none 5 (by decide) (by decide)

/-- A `cleanStep` on a component other than `..` only ever appends. -/
theorem cleanStep_eq_append (acc : List String) (s : String)
    (hs : s ≠ "..") : cleanStep acc s = acc ++ cleanStep [] s := by
  by_cases h1 : s = "" ∨ s = "."
  · simp [cleanStep, h1]
  · simp [cleanStep, h1, hs]

/-- Folding `cleanStep` over a `..`-free component list only appends to
the accumulator. -/
theorem foldl_cleanStep_append (v : List String) (hv : ".." ∉ v) :
    ∀ acc : List String,
      v.foldl cleanStep acc = acc ++ v.foldl cleanStep [] := by
  induction v with
  | nil => intro acc; simp
  | cons s v ih =>
    intro acc
    have hs : s ≠ ".." := fun h => hv (h ▸ List.mem_cons_self s v)
    have hv' : ".." ∉ v := fun h => hv (List.mem_cons_of_mem _ h)
    rw [List.foldl_cons, List.foldl_cons, ih hv' (cleanStep acc s),
      ih hv' (cleanStep [] s), cleanStep_eq_append acc s hs,
      List.append_assoc]

/-- A canonical path is left unchanged by canonicalisation. -/
theorem cleanSegs_of_isCleanPath (root : List String)
    (h : isCleanPath root) : cleanSegs root = root := by
  induction root with
  | nil => rfl
  | cons s v ih =>
    have hs : cleanName s := h s (List.mem_cons_self s v)
    have hv : isCleanPath v := fun x hx => h x (List.mem_cons_of_mem _ hx)
    have hnd : ".." ∉ v := fun hx => (hv ".." hx).2.2 rfl
    rw [cleanSegs, List.foldl_cons, foldl_cleanStep_append v hnd,
      ← cleanSegs, ih hv]
    simp [cleanStep, hs.1, hs.2.1, hs.2.2]

/-- Folding `cleanStep` preserves canonicity of the accumulator; in
particular every component `path.Clean` outputs is a kept name: not
empty, not `.`, not `..`. -/
theorem isCleanPath_foldl_cleanStep (v : List String) :
    ∀ acc : List String, isCleanPath acc →
      isCleanPath (v.foldl cleanStep acc) := by
  induction v with
  | nil => intro acc h; simpa using h
  | cons s v ih =>
    intro acc h
    rw [List.foldl_cons]
    apply ih
    by_cases h1 : s = "" ∨ s = "."
    · simpa [cleanStep, h1] using h
    · by_cases h2 : s = ".."
      · simp only [cleanStep, h1, if_false, h2, if_true]
        intro x hx
        exact h x ((List.dropLast_sublist acc).subset hx)
      · simp only [cleanStep, h1, if_false, h2]
        intro x hx
        rcases List.mem_append.mp hx with hx | hx
        · exact h x hx
        · have hxs : x = s := by simpa using hx
          subst hxs
          push_neg at h1
          exact ⟨h1.1, h1.2, h2⟩

/-- Canonicalised paths are canonical. -/
theorem isCleanPath_cleanSegs (u : List String) :
    isCleanPath (cleanSegs u) :=
  isCleanPath_foldl_cleanStep u [] (by intro x hx; cases hx)

/-- The mux-canonicalised path contains no `..` component. -/
theorem muxCleanPath_no_dotdot (u : List String) (ts : Bool) :
    ".." ∉ muxCleanPath u ts := by
  intro hmem
  simp only [muxCleanPath] at hmem
  split at hmem
  · rcases List.mem_append.mp hmem with hx | hx
    · exact (isCleanPath_cleanSegs u ".." hx).2.2 rfl
    · simp at hx
  · exact (isCleanPath_cleanSegs u ".." hmem).2.2 rfl

/-- Claim C1 counterexample: `ServeMux.Handler` does not canonicalise the
paths of CONNECT requests, so an authenticated `CONNECT /../../etc/passwd`
reaches `myFileServer` with its raw path; `filepath.Join` then resolves it
to `/etc/passwd` — not a descendant of the root `/srv/www` — and the
pipeline answers with the content of that file from outside the root
instead of "not found", refuting the claim as stated. -/
theorem claim_C1_counterexample :
    (¬ ∃ rest : List String,
        resolveRequest ["srv", "www"] connectTraversalReq =
          ["srv", "www"] ++ rest) ∧
      handleRequest fsOutside ["srv", "www"] sampleUp connectTraversalReq =
        ⟨200, [("Server", idstring)], "secret"⟩ := by
  constructor
  · rintro ⟨rest, h⟩
    have he : resolveRequest ["srv", "www"] connectTraversalReq =
        ["etc", "passwd"] := rfl
    rw [he] at h
    injection h with h1 h2
    exact absurd h1 (by decide)
  · rfl

/-- Claim C1 (amended): for every non-CONNECT request — whose URL path the
default mux canonicalises before the handler runs — and any canonical root
(such as the working directory `os.Getwd()` yields), the path
`myFileServer` resolves and opens is `root ++ rest` for a canonical
`rest`: `..` segments, `.` and redundant separators are canonicalised
away and the resolution never escapes the root, so no such request is
ever answered with content from outside the root (for them the "escaping
path answered with not found" condition is vacuous: no resolution
escapes).  CONNECT requests are exempt from mux canonicalisation and can
resolve outside the root. -/
theorem claim_C1 (root : List String) (r : Request)
    (hm : r.method ≠ "CONNECT") (hroot : isCleanPath root) :
    ∃ rest : List String, isCleanPath rest ∧
      resolveRequest root r = root ++ rest := by
  refine ⟨cleanSegs (muxCleanPath r.pathSegs r.trailingSlash),
    isCleanPath_cleanSegs _, ?_⟩
  rw [resolveRequest, muxHandlerPath, if_neg hm, cleanSegs,
    List.foldl_append,
    foldl_cleanStep_append _
      (muxCleanPath_no_dotdot r.pathSegs r.trailingSlash),
    ← cleanSegs, ← cleanSegs, cleanSegs_of_isCleanPath root hroot]

theorem claim_C1_witness :
    ∃ rest : List String, isCleanPath rest ∧
      resolveRequest ["srv", "www"] getTraversalReq =
        ["srv", "www"] ++ rest :=
  claim_C1 ["srv", "www"] getTraversalReq (by decide) (by decide)

/-- The `Readdir(100)` loop enumerates the whole directory: it appends
every pending entry, in filesystem order, to the accumulator. -/
theorem readdirLoop_eq :
    ∀ pending acc : List FileInfo, readdirLoop pending acc = acc ++ pending
  | pending, acc => by
    rw [readdirLoop]
    split
    · next hempty =>
      have : pending.take 100 = [] := List.isEmpty_iff.mp hempty
      have hnil : pending = [] := by
        rcases (List.take_eq_nil_iff).mp this with h | h
        · omega
        · exact h
      simp [hnil]
    · next hne =>
      rw [readdirLoop_eq (pending.drop 100) (acc ++ pending.take 100),
        List.append_assoc, List.take_append_drop]
termination_by pending _ => pending.length
decreasing_by
  rename_i hne
  simp only [List.isEmpty_iff] at hne
  have hp : pending ≠ [] := by
    intro hnil
    exact hne (by simp [hnil])
  have hlen : 0 < pending.length := List.length_pos.mpr hp
  simp only [List.length_drop]
  omega

/-- The comparator of `sortedFiles` is transitive. -/
theorem fileLE_trans (a b c : FileInfo) (h1 : fileLE a b) (h2 : fileLE b c) :
    fileLE a c := by
  simp only [fileLE, decide_eq_true_eq] at h1 h2 ⊢
  exact le_trans h1 h2

/-- The comparator of `sortedFiles` is total. -/
theorem fileLE_total (a b : FileInfo) : fileLE a b || fileLE b a := by
  simp only [fileLE, Bool.or_eq_true, decide_eq_true_eq]
  exact le_total _ _

/-- Claim C2: for every directory listing (no index substitution), the
emitted entries are exactly the directory's entries — all of them,
gathered by the bounded-read loop until exhaustion — ordered so that
`lower(name)` is non-decreasing between adjacent entries regardless of
filesystem order, with directory entries suffixed by a trailing `/`. -/
theorem claim_C2 (entries : List FileInfo) :
    (listedEntries entries).Perm entries ∧
      List.Chain' (fun a b => lowerName a.name ≤ lowerName b.name)
        (listedEntries entries) ∧
      sortedDirList entries =
        "<pre>" :: (listedEntries entries).map renderEntry ++ ["</pre>"] ∧
      (∀ d ∈ listedEntries entries, d.isDir = true →
        renderEntry d = "<a href=\"" ++ (d.name ++ "/") ++ "\">" ++
          (d.name ++ "/") ++ "</a>") := by
  refine ⟨?_, ?_, rfl, ?_⟩
  · rw [listedEntries, readdirLoop_eq entries [], List.nil_append]
    exact List.mergeSort_perm entries fileLE
  · have hpw := List.sorted_mergeSort fileLE_trans fileLE_total
      (readdirLoop entries [])
    have hpw' : (listedEntries entries).Pairwise
        (fun a b => lowerName a.name ≤ lowerName b.name) := by
      refine List.Pairwise.imp ?_ hpw
      intro a b hab
      simpa [fileLE] using hab
    exact hpw'.chain'
  · intro d _ hdir
    simp [renderEntry, displayName, hdir]

/-- Claim C3 counterexample: in `fsIdxDir` the directory `/d` contains an
openable and stat-able `index.html`, yet the response is a directory
listing (of the substituted `index.html` directory), because the
substituted resource is itself still a directory — refuting the claim as
stated. -/
theorem claim_C3_counterexample :
    fsIdxDir.Open ["d", "index.html"] =
        some ⟨some ⟨"index.html", true, 8⟩, [], ""⟩ ∧
      serveFile fsIdxDir ["d"] none = Response.dirList ["<pre>", "</pre>"] := by
  constructor
  · rfl
  · simp [serveFile, fsIdxDir, indexPage, checkLastModified, sortedDirList,
      listedEntries, readdirLoop_eq]

/-- Claim C3 (amended): for every request for a directory containing an
openable and stat-able `index.html` that is not itself a directory, the
response serves that index file's content and modification time via the
content transmitter — never a directory listing; the substitution takes
priority over listing. -/
theorem claim_C3 (fs : FileSystem) (name : List String) (ims : Option Time)
    (f0 ff : GoFile) (d0 dd : FileInfo)
    (hopen : fs.Open name = some f0) (hstat : f0.stat = some d0)
    (hdir : d0.isDir = true)
    (hidx : fs.Open (name ++ indexPage) = some ff)
    (hidxstat : ff.stat = some dd) (hnd : dd.isDir = false) :
    serveFile fs name ims = Response.content dd.name dd.modTime ff.content := by
  simp [serveFile, hopen, hstat, hdir, hidx, hidxstat, hnd]

theorem claim_C3_witness :
    serveFile fsIdxFile ["d"] none =
      Response.content "index.html" 9 "hello" :=
  claim_C3 fsIdxFile ["d"] none ⟨some ⟨"d", true, 7⟩, [], ""⟩
    ⟨some ⟨"index.html", false, 9⟩, [], "hello"⟩ ⟨"d", true, 7⟩
    ⟨"index.html", false, 9⟩ rfl rfl rfl rfl rfl rfl

/-- Claim C6: every request whose Basic-Auth header does not decode to the
process's credential gets the uniform 401 response with the
`WWW-Authenticate` challenge, identical for any two such requests
regardless of path or method (so no distinction between wrong user and
wrong password is visible). -/
theorem claim_C6 (fn fn2 : Request → Except GoPanic HttpResponse)
    (up : UserPass) (r r2 : Request)
    (h : isAllowed up r = false) (h2 : isAllowed up r2 = false) :
    (makeHandler fn up r).status = 401 ∧
      ("WWW-Authenticate", "Basic realm=\"simpleHttpd\"") ∈
        (makeHandler fn up r).headers ∧
      makeHandler fn up r = makeHandler fn2 up r2 := by
  simp [makeHandler, h, h2, sendUnauthorized]

theorem claim_C6_witness :
    (makeHandler (fun _ => Except.ok emptyOK) sampleUp sampleReqNone).status
        = 401 ∧
      ("WWW-Authenticate", "Basic realm=\"simpleHttpd\"") ∈
        (makeHandler (fun _ => Except.ok emptyOK) sampleUp
          sampleReqNone).headers ∧
      makeHandler (fun _ => Except.ok emptyOK) sampleUp sampleReqNone =
        makeHandler (fun _ => Except.error GoPanic.nonError) sampleUp
          sampleReqWrong :=
  claim_C6 (fun _ => Except.ok emptyOK)
    (fun _ => Except.error GoPanic.nonError) sampleUp sampleReqNone
    sampleReqWrong (by decide) (by decide)

/-- Claim C7 counterexample: a panic whose value does not implement
`error` (so the `recover().(error)` assertion fails) is swallowed without
any 500 response being written — the client sees an empty 200 — refuting
the claim that every panic is converted into a 500 with the error's
message. -/
theorem claim_C7_counterexample :
    (makeHandler (fun _ => Except.error GoPanic.nonError) sampleUp
        sampleReqOk).status ≠ 500 := by
  decide

/-- Claim C7 (amended): every panic raised inside request handling is
intercepted at the handler boundary — it never propagates, so a single bad
request cannot crash the process; a panic whose value implements `error`
is converted into a 500-equivalent response carrying its message, while a
panic with any other value is intercepted but produces no error response
(an empty 200). -/
theorem claim_C7 (fn : Request → Except GoPanic HttpResponse)
    (up : UserPass) (r : Request) (h : isAllowed up r = true) :
    (∀ msg, fn r = Except.error (GoPanic.errVal msg) →
        makeHandler fn up r = http500 msg) ∧
      (fn r = Except.error GoPanic.nonError →
        makeHandler fn up r = emptyOK) := by
  constructor
  · intro msg hm
    simp [makeHandler, h, hm]
  · intro hm
    simp [makeHandler, h, hm]

theorem claim_C7_witness :
    makeHandler (fun _ => Except.error (GoPanic.errVal "boom")) sampleUp
        sampleReqOk = http500 "boom" :=
  (claim_C7 (fun _ => Except.error (GoPanic.errVal "boom")) sampleUp
    sampleReqOk (by decide)).1 "boom" rfl

/-- Claim C10: a request failing the Basic-Auth check is answered without
invoking the serving pipeline, so the unauthorized response is identical
across any two runs differing only in the filesystem contents under the
root, the root itself, or the request's path and method — nothing about
the tree leaks to unauthenticated clients. -/
theorem claim_C10 (fs1 fs2 : FileSystem) (root1 root2 : List String)
    (up : UserPass) (r1 r2 : Request)
    (hc : r1.creds = r2.creds) (h1 : isAllowed up r1 = false) :
    handleRequest fs1 root1 up r1 = handleRequest fs2 root2 up r2 ∧
      handleRequest fs1 root1 up r1 = sendUnauthorized "simpleHttpd" := by
  have h2 : isAllowed up r2 = false := by
    simp only [isAllowed, ← hc]
    exact h1
  have e1 : handleRequest fs1 root1 up r1 = sendUnauthorized "simpleHttpd" := by
    simp only [handleRequest, makeHandler]
    rw [if_neg]
    simp only [Bool.not_eq_true]
    exact h1
  have e2 : handleRequest fs2 root2 up r2 = sendUnauthorized "simpleHttpd" := by
    simp only [handleRequest, makeHandler]
    rw [if_neg]
    simp only [Bool.not_eq_true]
    exact h2
  exact ⟨e1.trans e2.symm, e1⟩

theorem claim_C10_witness :
    handleRequest ⟨fun _ => none⟩ ["srv"] sampleUp sampleReqNone =
        handleRequest fsIdxFile ["other", "root"] sampleUp
          ⟨["x", "y"], true, "POST", none, some 3⟩ ∧
      handleRequest ⟨fun _ => none⟩ ["srv"] sampleUp sampleReqNone =
        sendUnauthorized "simpleHttpd" :=
  claim_C10 ⟨fun _ => none⟩ fsIdxFile ["srv"] ["other", "root"] sampleUp
    sampleReqNone ⟨["x", "y"], true, "POST", none, some 3⟩ rfl (by decide)

/-- The flattened hex character list has two characters per byte. -/
theorem hexChars_length (bs : List Nat) :
    ((bs.map hexByteChars).flatten).length = 2 * bs.length := by
  induction bs with
  | nil => rfl
  | cons b bs ih =>
    simp only [List.map_cons, List.flatten_cons, List.length_append, ih,
      hexByteChars, List.length_cons, List.length_nil]
    omega

/-- Hex encoding produces exactly two characters per byte. -/
theorem hexEncode_length (bs : List Nat) :
    (hexEncode bs).length = 2 * bs.length :=
  hexChars_length bs

/-- Every hex digit character is drawn from the hex alphabet. -/
theorem hexDigitChar_mem (n : Nat) : hexDigitChar n ∈ hexAlphabet := by
  rw [hexDigitChar, hexAlphabet]
  exact List.mem_map_of_mem _ (List.mem_range.mpr (Nat.mod_lt _ (by omega)))

/-- Every character of a hex encoding is a lowercase hex digit. -/
theorem hexEncode_chars (bs : List Nat) :
    ∀ c ∈ (hexEncode bs).data, c ∈ hexAlphabet := by
  intro c hc
  simp only [hexEncode, String.mk] at hc
  rcases List.mem_flatten.mp hc with ⟨l, hl, hcl⟩
  rcases List.mem_map.mp hl with ⟨b, _, rfl⟩
  simp only [hexByteChars, List.mem_cons, List.not_mem_nil, or_false] at hcl
  rcases hcl with rfl | rfl <;> exact hexDigitChar_mem _

/-- Claim C9: `randToken` succeeds exactly when the randomness source
supplies the requested bytes, returning their hex encoding — a `2 * size`
character string over the hex alphabet; `initUserPass` derives the
username and the password from two independent 20-byte reads (40 hex
characters each) and is fatal whenever a read cannot supply its bytes. -/
theorem claim_C9 (size : Nat) (r r1 r2 : ReadResult)
    (hr : r.err = none ∧ r.bytes.length = size)
    (h1 : r1.err = none ∧ r1.bytes.length = 20)
    (h2 : r2.err = none ∧ r2.bytes.length = 20) :
    randToken size r = Except.ok (hexEncode r.bytes) ∧
      (hexEncode r.bytes).length = 2 * size ∧
      (∀ c ∈ (hexEncode r.bytes).data, c ∈ hexAlphabet) ∧
      initUserPass r1 r2 =
        InitResult.ok (hexEncode r1.bytes) (hexEncode r2.bytes) ∧
      (hexEncode r1.bytes).length = 40 ∧
      (hexEncode r2.bytes).length = 40 ∧
      (∀ r3 r4 : ReadResult,
        (r3.err.isSome ∨ r3.bytes.length ≠ 20) ∨
          (r4.err.isSome ∨ r4.bytes.length ≠ 20) →
        ∃ msg, initUserPass r3 r4 = InitResult.fatal msg) := by
  refine ⟨?_, ?_, hexEncode_chars r.bytes, ?_, ?_, ?_, ?_⟩
  · simp [randToken, hr.1, hr.2]
  · rw [hexEncode_length, hr.2]
  · simp [initUserPass, randToken, h1.1, h1.2, h2.1, h2.2]
  · rw [hexEncode_length, h1.2]
  · rw [hexEncode_length, h2.2]
  · intro r3 r4 hbad
    refine ⟨"failed to get some randomness", ?_⟩
    by_cases hb : r3.err.isSome ∨ r3.bytes.length ≠ 20
    · simp [initUserPass, randToken, hb]
    · rcases hbad with hbad | hbad
      · exact absurd hbad hb
      · push_neg at hb
        have h3e : r3.err = none := Option.not_isSome_iff_eq_none.mp hb.1
        simp [initUserPass, randToken, h3e, hb.2, hbad]

theorem claim_C9_witness :
    randToken 1 sampleRead1 = Except.ok (hexEncode [171]) ∧
      (hexEncode [171]).length = 2 * 1 ∧
      (∀ c ∈ (hexEncode [171]).data, c ∈ hexAlphabet) ∧
      initUserPass sampleRead20 sampleRead20 =
        InitResult.ok (hexEncode (List.replicate 20 0))
          (hexEncode (List.replicate 20 0)) ∧
      (hexEncode (List.replicate 20 0)).length = 40 ∧
      (hexEncode (List.replicate 20 0)).length = 40 ∧
      (∀ r3 r4 : ReadResult,
        (r3.err.isSome ∨ r3.bytes.length ≠ 20) ∨
          (r4.err.isSome ∨ r4.bytes.length ≠ 20) →
        ∃ msg, initUserPass r3 r4 = InitResult.fatal msg) :=
  claim_C9 1 sampleRead1 sampleRead20 sampleRead20 ⟨rfl, rfl⟩ ⟨rfl, by decide⟩
    ⟨rfl, by decide⟩

end Fafserver
